import Mathlib

set_option autoImplicit false

-- ============================================================================
-- CrashHandler.h : the ENCODE_BREAD breadcrumb packing
-- ============================================================================

/-- Subtraction of 32-bit machine words (two's complement, wrapping). -/
def sub32 (x y : Nat) : Nat := (x + 4294967296 - y % 4294967296) % 4294967296

/-- The character code `a[i]` of a C string given as its list of characters; past the
end the terminating NUL is read. -/
def charAt (a : List Char) (i : Nat) : Nat := (a.getD i (Char.ofNat 0)).toNat

/-- One 5-bit field of the macro: `(a[i] - 0x40) & 0x1F`. -/
def breadField (a : List Char) (i : Nat) : Nat := sub32 (charAt a i) 0x40 &&& 0x1F

/-- The sum written in the body of `ENCODE_BREAD`, before truncation to 32 bits. -/
def breadSum (a : List Char) : Nat :=
  (breadField a 0 <<< 27) + (breadField a 1 <<< 22) + (breadField a 2 <<< 17)
    + (breadField a 3 <<< 12) + (breadField a 4 <<< 7)

/-- The macro `ENCODE_BREAD(a)` of CrashHandler.h, taken as a 32-bit unsigned word. -/
def ENCODE_BREAD (a : List Char) : Nat := breadSum a % 4294967296

/-- The argument `ENCODE_BREAD(a) + c` handed to `addBreadcrumb(uint32_t)`. -/
def breadcrumbWithCounter (a : List Char) (c : Nat) : Nat := (ENCODE_BREAD a + c) % 4294967296

/-- A name of exactly five letters, each in the range A to Z. -/
def isUpperName (a : List Char) : Prop :=
  a.length = 5 ∧ ∀ c ∈ a, 0x41 ≤ c.toNat ∧ c.toNat ≤ 0x5A

instance (a : List Char) : Decidable (isUpperName a) := by
  unfold isUpperName; infer_instance

/-- The name used by the breadcrumbs of PotThrottle.cpp. -/
def PTTHR : List Char := ['P', 'T', 'T', 'H', 'R']

/-- Breadcrumb dropped by `PotThrottle::setup`: `ENCODE_BREAD("PTTHR") + 0`. -/
def setupBreadcrumb : Nat := breadcrumbWithCounter PTTHR 0

/-- Breadcrumb dropped by `PotThrottle::handleTick`: `ENCODE_BREAD("PTTHR") + 1`. -/
def handleTickBreadcrumb : Nat := breadcrumbWithCounter PTTHR 1

-- ============================================================================
-- PotThrottle.cpp : validateSignal
-- ============================================================================

/-- Reduction of an integer to the `int32_t` range (two's complement wrap). -/
def wrap32 (x : Int) : Int := (x + 2147483648) % 4294967296 - 2147483648

/-- The value is representable as an `int32_t`. -/
def isInt32 (x : Int) : Prop := -2147483648 ≤ x ∧ x ≤ 2147483647

instance (x : Int) : Decidable (isInt32 x) := by
  unfold isInt32; infer_instance

/-- Throttle status values named in PotThrottle.cpp. -/
inductive ThrottleStatus where
  | OK | ERR_LOW_T1 | ERR_LOW_T2 | ERR_HIGH_T1 | ERR_HIGH_T2 | ERR_MISMATCH | ERR_MISC
  deriving DecidableEq, Repr

/-- Fault codes named in PotThrottle.cpp. -/
inductive ThrottleFault where
  | FAULT_THROTTLE_HIGH_A | FAULT_THROTTLE_LOW_A | FAULT_THROTTLE_HIGH_B | FAULT_THROTTLE_LOW_B
  | FAULT_THROTTLE_MISMATCH_AB
  deriving DecidableEq, Repr

/-- Calls made by `validateSignal` on the logger and the fault handler, in order. -/
inductive ThrottleEffect where
  | logError (status : ThrottleStatus) (v1 v2 : Int)
  | logInfo
  | raiseFault (f : ThrottleFault)
  | cancelOngoingFault (f : ThrottleFault)
  deriving DecidableEq, Repr

/-- The two raw ADC readings of `RawSignalData` that `validateSignal` reads. -/
structure RawSignalData where
  input1 : Int
  input2 : Int
  deriving DecidableEq, Repr

/-- The fields of `PotThrottleConfiguration` used in PotThrottle.cpp. -/
structure PotThrottleConfiguration where
  minimumLevel1 : Int
  maximumLevel1 : Int
  minimumLevel2 : Int
  maximumLevel2 : Int
  numberPotMeters : Nat
  throttleSubType : Nat
  AdcPin1 : Nat
  AdcPin2 : Nat
  deriving DecidableEq, Repr

/-- What PotThrottle.cpp takes from headers that are not part of the sources: the two
constants and the base-class function `normalizeInput`. They are parameters. -/
structure ThrottleEnv where
  CFG_THROTTLE_TOLERANCE : Int
  ThrottleMaxErrValue : Int
  normalizeInput : Int → Int → Int → Int

/-- Outcome of `validateSignal`: the returned flag, the new `status`, the calls made. -/
structure ValidateResult where
  ok : Bool
  status : ThrottleStatus
  effects : List ThrottleEffect
  deriving DecidableEq, Repr

/-- The guard `if (status == OK) Logger::error(...)`. -/
def logIfOK (status : ThrottleStatus) (e : ThrottleEffect) : List ThrottleEffect :=
  if status = ThrottleStatus.OK then [e] else []

/-- The function `PotThrottle::validateSignal`, branch by branch. `calcThrottle1` and
`calcThrottle2` are `int32_t`; every arithmetic result is reduced with `wrap32`. -/
def validateSignal (env : ThrottleEnv) (config : PotThrottleConfiguration)
    (status : ThrottleStatus) (rawSignal : RawSignalData) : ValidateResult :=
  let calcThrottle1 : Int :=
    wrap32 (env.normalizeInput rawSignal.input1 config.minimumLevel1 config.maximumLevel1)
  let calcThrottle1 : Int :=
    if config.numberPotMeters = 1 ∧ config.throttleSubType = 2 then wrap32 (1000 - calcThrottle1)
    else calcThrottle1
  if calcThrottle1 > wrap32 (1000 + env.CFG_THROTTLE_TOLERANCE) then
    ⟨false, .ERR_HIGH_T1,
      logIfOK status (.logError .ERR_HIGH_T1 calcThrottle1 0)
        ++ [.raiseFault .FAULT_THROTTLE_HIGH_A]⟩
  else
    let calcThrottle1 : Int := if calcThrottle1 > 1000 then 1000 else calcThrottle1
    let fx1 : List ThrottleEffect := [.cancelOngoingFault .FAULT_THROTTLE_HIGH_A]
    if calcThrottle1 < wrap32 (0 - env.CFG_THROTTLE_TOLERANCE) then
      ⟨false, .ERR_LOW_T1,
        fx1 ++ logIfOK status (.logError .ERR_LOW_T1 calcThrottle1 0)
          ++ [.raiseFault .FAULT_THROTTLE_LOW_A]⟩
    else
      let calcThrottle1 : Int := if calcThrottle1 < 0 then 0 else calcThrottle1
      let fx2 : List ThrottleEffect := fx1 ++ [.cancelOngoingFault .FAULT_THROTTLE_LOW_A]
      let calcThrottle2 : Int :=
        wrap32 (env.normalizeInput rawSignal.input2 config.minimumLevel2 config.maximumLevel2)
      if calcThrottle2 > wrap32 (1000 + env.CFG_THROTTLE_TOLERANCE) then
        ⟨false, .ERR_HIGH_T2,
          fx2 ++ logIfOK status (.logError .ERR_HIGH_T2 calcThrottle2 0)
            ++ [.raiseFault .FAULT_THROTTLE_HIGH_B]⟩
      else
        let calcThrottle2 : Int := if calcThrottle2 > 1000 then 1000 else calcThrottle2
        let fx3 : List ThrottleEffect := fx2 ++ [.cancelOngoingFault .FAULT_THROTTLE_HIGH_B]
        if calcThrottle2 < wrap32 (0 - env.CFG_THROTTLE_TOLERANCE) then
          ⟨false, .ERR_LOW_T2,
            fx3 ++ logIfOK status (.logError .ERR_LOW_T2 calcThrottle2 0)
              ++ [.cancelOngoingFault .FAULT_THROTTLE_LOW_B]⟩
        else
          let calcThrottle2 : Int := if calcThrottle2 < 0 then 0 else calcThrottle2
          let fx4 : List ThrottleEffect := fx3 ++ [.cancelOngoingFault .FAULT_THROTTLE_LOW_B]
          if wrap32 (calcThrottle1 - env.ThrottleMaxErrValue) > calcThrottle2 then
            ⟨false, .ERR_MISMATCH,
              fx4 ++ logIfOK status (.logError .ERR_MISMATCH calcThrottle1 calcThrottle2)
                ++ [.raiseFault .FAULT_THROTTLE_MISMATCH_AB]⟩
          else if wrap32 (calcThrottle2 - env.ThrottleMaxErrValue) > calcThrottle1 then
            ⟨false, .ERR_MISMATCH,
              fx4 ++ logIfOK status (.logError .ERR_MISMATCH calcThrottle2 calcThrottle1)
                ++ [.raiseFault .FAULT_THROTTLE_MISMATCH_AB]⟩
          else
            let fx5 : List ThrottleEffect :=
              fx4 ++ [.cancelOngoingFault .FAULT_THROTTLE_MISMATCH_AB]
            ⟨true, .OK,
              fx5 ++ (if status ≠ .OK ∧ status ≠ .ERR_MISC then [.logInfo] else [])⟩

/-- The reading `c1` of the acceptance condition: the unconstrained result of
`normalizeInput` for input 1, inverted when one inverse potentiometer is configured. -/
def unconstrained1 (env : ThrottleEnv) (config : PotThrottleConfiguration)
    (rawSignal : RawSignalData) : Int :=
  if config.numberPotMeters = 1 ∧ config.throttleSubType = 2 then
    1000 - env.normalizeInput rawSignal.input1 config.minimumLevel1 config.maximumLevel1
  else env.normalizeInput rawSignal.input1 config.minimumLevel1 config.maximumLevel1

/-- The reading `c2` of the acceptance condition: the unconstrained result of
`normalizeInput` for input 2. -/
def unconstrained2 (env : ThrottleEnv) (config : PotThrottleConfiguration)
    (rawSignal : RawSignalData) : Int :=
  env.normalizeInput rawSignal.input2 config.minimumLevel2 config.maximumLevel2

/-- The clamp `min(1000, max(0, x))` of the acceptance condition. -/
def clampPermille (x : Int) : Int := min 1000 (max 0 x)

/-- A linear per-mille map, standing in for `normalizeInput` when the model is
evaluated on concrete readings. -/
def linearNormalize (input minimum maximum : Int) : Int :=
  (input - minimum) * 1000 / (maximum - minimum)

/-- Concrete parameters for evaluation: tolerance 15.0 %, mismatch limit 10.0 %, as the
comments of `validateSignal` give them. -/
def sampleEnv : ThrottleEnv := ⟨150, 100, linearNormalize⟩

/-- The defaults written by `PotThrottle::loadConfiguration`. -/
def defaultConfig : PotThrottleConfiguration := ⟨614, 3170, 303, 1583, 2, 1, 0, 4⟩

-- ============================================================================
-- CanHandler.h : data model (from the header)
-- ============================================================================

/-- The frame descriptor exchanged with the transport (the `CAN_message_t` of the CAN
library): identifier, extended flag, length, data bytes. -/
structure CAN_message_t where
  id : Nat
  extended : Bool
  len : Nat
  buf : List Nat
  deriving DecidableEq, Repr

/-- Enumerator `SDO_WRITE` of `SDO_COMMAND`. -/
def SDO_WRITE : Nat := 0x20

/-- Enumerator `SDO_READ` of `SDO_COMMAND`. -/
def SDO_READ : Nat := 0x40

/-- Enumerator `SDO_WRITEACK` of `SDO_COMMAND`. -/
def SDO_WRITEACK : Nat := 0x60

/-- The struct `SDO_FRAME`; `cmd` holds the value of the `SDO_COMMAND` enumerator and
`data` the four bytes of `uint8_t data[4]`. -/
structure SDO_FRAME where
  nodeID : Nat
  cmd : Nat
  index : Nat
  subIndex : Nat
  dataLength : Nat
  data : List Nat
  deriving DecidableEq, Repr

/-- The field widths of `SDO_FRAME`: `uint8_t`, `uint16_t`, and a four-byte array. -/
def SDO_FRAME.wellTyped (f : SDO_FRAME) : Prop :=
  f.nodeID < 256 ∧ f.index < 65536 ∧ f.subIndex < 256 ∧ f.dataLength < 256 ∧
    f.data.length = 4 ∧ ∀ b ∈ f.data, b < 256

instance (f : SDO_FRAME) : Decidable f.wellTyped := by
  unfold SDO_FRAME.wellTyped; infer_instance

/-- Enumerator `SINGLE` of `ISOTP_MODE`. -/
def SINGLE : Nat := 0

/-- Enumerator `FIRST` of `ISOTP_MODE`. -/
def FIRST : Nat := 1

/-- Enumerator `CONSEC` of `ISOTP_MODE`. -/
def CONSEC : Nat := 2

/-- Enumerator `FLOW` of `ISOTP_MODE`. -/
def FLOW : Nat := 3

/-- The private state of a `CanObserver`. -/
structure CanObserver where
  canOpenMode : Bool
  nodeID : Nat
  deriving DecidableEq, Repr

/-- The struct `CanHandler::CanObserverData`. The pointer `observer` is a handle; `none`
is the null pointer of a free slot. -/
structure CanObserverData where
  id : Nat
  mask : Nat
  extended : Bool
  mailbox : Nat
  observer : Option Nat
  deriving DecidableEq, Repr

/-- The state of a `CanHandler` that dispatch uses: the table `observerData`, whose
length is `CFG_CAN_NUM_OBSERVERS`, and `busSpeed`. -/
structure CanHandler where
  observerData : List CanObserverData
  busSpeed : Nat
  deriving DecidableEq, Repr

/-- One call made on an observer, with the observer's handle. -/
inductive ObserverCall where
  | handleCanFrame (observer : Nat) (frame : CAN_message_t)
  | handlePDOFrame (observer : Nat) (frame : CAN_message_t)
  | handleSDOResponse (observer : Nat) (frame : SDO_FRAME)
  deriving DecidableEq, Repr

/-- The observer a call is made on. -/
def ObserverCall.target : ObserverCall → Nat
  | .handleCanFrame o _ => o
  | .handlePDOFrame o _ => o
  | .handleSDOResponse o _ => o

/-- The call is the raw-frame handler of the given observer. -/
def isRawCallTo (observer : Nat) : ObserverCall → Bool
  | .handleCanFrame o _ => o == observer
  | _ => false

-- ============================================================================
-- CanHandler : SDO framing (bodies not in the sources)
-- ============================================================================

/-- Modelled from the spec: the data-length encoding of an expedited SDO transfer, which
`sendSDORequest` and `sendSDOResponse` combine with the command in byte 0 (their bodies are
missing). It is the CANopen expedited layout: bit 1 expedited, bit 0 size indicated, bits
3..2 the count of unused payload bytes; no bits when no payload is carried. -/
def sdoLengthBits (dataLength : Nat) : Nat :=
  if dataLength = 0 then 0 else ((4 - dataLength) <<< 2) ||| 0x03

/-- Modelled from the spec: the common body of `sendSDORequest` and `sendSDOResponse`
(missing from the sources). Byte 0 is the command combined with the data-length encoding,
bytes 1-2 the index little-endian, byte 3 the sub-index, bytes 4-7 the payload zero-padded;
the identifier is the base plus the node ID; a data length above 4 is rejected and no frame
is sent. -/
def encodeSDO (base : Nat) (frame : SDO_FRAME) : Option CAN_message_t :=
  if frame.dataLength > 4 then none
  else
    some
      { id := base + frame.nodeID
        extended := false
        len := 8
        buf := [(frame.cmd ||| sdoLengthBits frame.dataLength) % 256,
                frame.index &&& 0xFF, (frame.index >>> 8) &&& 0xFF, frame.subIndex % 256]
              ++ (frame.data.take frame.dataLength
                    ++ List.replicate (4 - (frame.data.take frame.dataLength).length) 0) }

/-- Modelled from the spec: `CanHandler::sendSDORequest` (body missing), the frame it
hands to the transport; the request range starts at 0x600. -/
def sendSDORequest (frame : SDO_FRAME) : Option CAN_message_t := encodeSDO 0x600 frame

/-- Modelled from the spec: `CanHandler::sendSDOResponse` (body missing), the frame it
hands to the transport; the response range starts at 0x580. -/
def sendSDOResponse (frame : SDO_FRAME) : Option CAN_message_t := encodeSDO 0x580 frame

/-- Modelled from the spec: the parsing of an SDO frame into an `SDO_FRAME`, done by the
dispatcher before it calls an SDO handler (body missing). It reads back the layout that
`encodeSDO` writes. -/
def decodeSDO (base : Nat) (msg : CAN_message_t) : SDO_FRAME :=
  { nodeID := msg.id - base
    cmd := msg.buf.getD 0 0 &&& 0xE0
    index := msg.buf.getD 1 0 ||| (msg.buf.getD 2 0 <<< 8)
    subIndex := msg.buf.getD 3 0
    dataLength :=
      if msg.buf.getD 0 0 &&& 0x03 = 0x03 then 4 - ((msg.buf.getD 0 0 >>> 2) &&& 0x03) else 0
    data := [msg.buf.getD 4 0, msg.buf.getD 5 0, msg.buf.getD 6 0, msg.buf.getD 7 0] }

/-- The frame layout and the round trip of one SDO frame, as the property states them:
identifier, the eight bytes, and the fields read back by `decodeSDO`. -/
def sdoRoundTrip (base : Nat) (f : SDO_FRAME) (msg : CAN_message_t) : Prop :=
  msg.id = base + f.nodeID ∧ msg.len = 8 ∧ msg.buf.length = 8 ∧
  msg.buf.getD 0 0 = f.cmd ||| sdoLengthBits f.dataLength ∧
  msg.buf.getD 1 0 = f.index % 256 ∧ msg.buf.getD 2 0 = f.index / 256 ∧
  msg.buf.getD 3 0 = f.subIndex ∧
  msg.buf.drop 4 = f.data.take f.dataLength ++ List.replicate (4 - f.dataLength) 0 ∧
  (decodeSDO base msg).nodeID = f.nodeID ∧ (decodeSDO base msg).cmd = f.cmd ∧
  (decodeSDO base msg).index = f.index ∧ (decodeSDO base msg).subIndex = f.subIndex ∧
  (decodeSDO base msg).dataLength = f.dataLength ∧
  (decodeSDO base msg).data.take f.dataLength = f.data.take f.dataLength ∧
  (f.data.drop f.dataLength = List.replicate (4 - f.dataLength) 0 → decodeSDO base msg = f)

instance (base : Nat) (f : SDO_FRAME) (msg : CAN_message_t) :
    Decidable (sdoRoundTrip base f msg) := by
  unfold sdoRoundTrip; infer_instance

/-- The SDO frame of the round-trip scenario: node 5, WRITE, index 0x2100, sub-index 1,
two data bytes 0xAB 0xCD. -/
def sdoSample : SDO_FRAME := ⟨5, SDO_WRITE, 0x2100, 1, 2, [0xAB, 0xCD, 0, 0]⟩

-- ============================================================================
-- CanHandler : ISO-TP segmentation (body not in the sources)
-- ============================================================================

/-- Conversion of an `int` to the 32-bit unsigned word with the same bit pattern. -/
def toU32 (x : Int) : Nat := (x % 4294967296).toNat

/-- Modelled from the spec: the loop of `sendISOTP` (body missing) that sends the `CONSEC`
frames. Each frame has byte 0 = `(CONSEC<<4) | (sequenceNumber & 0xF)` followed by up to 7
payload bytes, until all bytes are sent. The first argument bounds the iterations; every
iteration sends at least one byte, so `remaining` iterations suffice. -/
def sendConsec (id : Nat) (data : List Nat) : Nat → Nat → Nat → Nat → List CAN_message_t
  | 0, _, _, _ => []
  | fuel + 1, offset, remaining, sequenceNumber =>
    if remaining = 0 then []
    else
      { id := id
        extended := false
        len := min 7 remaining + 1
        buf := (((CONSEC <<< 4) ||| (sequenceNumber &&& 0xF)) % 256)
                :: (data.drop offset).take (min 7 remaining) }
        :: sendConsec id data fuel (offset + min 7 remaining) (remaining - min 7 remaining)
            (sequenceNumber + 1)

/-- Modelled from the spec: `CanHandler::sendISOTP(int id, int length, uint8_t *data)`
(body missing), as the list of frames handed to the transport. A length of at most 7
gives one `SINGLE` frame; otherwise one `FIRST` frame with byte 0 =
`(FIRST<<4) | (length>>8)`, byte 1 = `length & 0xFF` and 6 payload bytes, then the `CONSEC`
frames with sequence numbers from 1. Header bytes are stored in `uint8_t` cells. -/
def sendISOTP (id : Int) (length : Int) (data : List Nat) : List CAN_message_t :=
  if length ≤ 7 then
    [{ id := toU32 id
       extended := false
       len := length.toNat + 1
       buf := (((SINGLE <<< 4) ||| toU32 length) % 256) :: data.take length.toNat }]
  else
    { id := toU32 id
      extended := false
      len := 8
      buf := (((FIRST <<< 4) ||| (toU32 length >>> 8)) % 256) :: (toU32 length &&& 0xFF)
              :: data.take 6 }
      :: sendConsec (toU32 id) data (length.toNat - 6) 6 (length.toNat - 6) 1

/-- The high nibble of the header byte of an ISO-TP frame: its `ISOTP_MODE`. -/
def isotpMode (frame : CAN_message_t) : Nat := (frame.buf.getD 0 0 >>> 4) &&& 0xF

/-- The total length a `FIRST` frame declares: low nibble of byte 0, then byte 1. -/
def isotpDeclaredLength (frame : CAN_message_t) : Nat :=
  ((frame.buf.getD 0 0 &&& 0xF) <<< 8) ||| frame.buf.getD 1 0

/-- The payload bytes of an ISO-TP frame: after two header bytes in a `FIRST` frame,
after one in the others. -/
def isotpPayload (frame : CAN_message_t) : List Nat :=
  if isotpMode frame = FIRST then frame.buf.drop 2 else frame.buf.drop 1

/-- The symmetric receiver of the round-trip property: the payloads of the frames,
concatenated in order. -/
def isotpReassemble (frames : List CAN_message_t) : List Nat :=
  (frames.map isotpPayload).flatten

-- ============================================================================
-- CanHandler : observer registry and dispatch (bodies not in the sources)
-- ============================================================================

/-- A free slot of `observerData`: no observer. -/
def freeObserverData : CanObserverData := ⟨0, 0, false, 0, none⟩

/-- Modelled from the spec: the registry after construction (the constructor body is
missing): `numObservers` free slots; `numObservers` stands for `CFG_CAN_NUM_OBSERVERS`. -/
def CanHandler.init (numObservers busSpeed : Nat) : CanHandler :=
  ⟨List.replicate numObservers freeObserverData, busSpeed⟩

/-- Modelled from the spec: `CanHandler::findFreeObserverData` (body missing), a linear
scan returning the first free index, or -1 when the table is full. -/
def findFreeObserverData (h : CanHandler) : Int :=
  match h.observerData.findIdx? (fun e => e.observer.isNone) with
  | some i => (i : Int)
  | none => -1

/-- A mailbox is in use when an active entry is assigned to it. -/
def mailboxInUse (h : CanHandler) (m : Nat) : Bool :=
  h.observerData.any (fun e => e.observer.isSome && e.mailbox == m)

/-- Modelled from the spec: `CanHandler::findFreeMailbox` (body missing), a linear scan
over the mailbox pool returning the first free mailbox, or -1 when none is free. -/
def findFreeMailbox (numMailboxes : Nat) (h : CanHandler) : Int :=
  match (List.range numMailboxes).find? (fun m => !mailboxInUse h m) with
  | some m => (m : Int)
  | none => -1

/-- Modelled from the spec: `CanHandler::attach` (body missing). It finds a free slot and
a free mailbox and records the mapping; when either is exhausted it changes nothing. -/
def attach (numMailboxes : Nat) (h : CanHandler) (observer : Nat) (id mask : Nat)
    (extended : Bool) : CanHandler :=
  let slot := findFreeObserverData h
  let mailbox := findFreeMailbox numMailboxes h
  if slot < 0 ∨ mailbox < 0 then h
  else
    { h with
      observerData :=
        h.observerData.set slot.toNat
          { id := id, mask := mask, extended := extended, mailbox := mailbox.toNat,
            observer := some observer } }

/-- Modelled from the spec: `CanHandler::detach` (body missing). It frees the entries
matching the triple of observer, id and mask; without such an entry it changes nothing. -/
def detach (h : CanHandler) (observer : Nat) (id mask : Nat) : CanHandler :=
  { h with
    observerData :=
      h.observerData.map (fun e =>
        if e.observer = some observer ∧ e.id = id ∧ e.mask = mask then freeObserverData else e) }

/-- Modelled from the spec: the test that a frame is a PDO by its CANopen function code
(the four bits above the 7-bit node ID); the PDO function codes are 3 to 10. -/
def isPDOFrame (msg : CAN_message_t) : Bool :=
  decide (3 ≤ msg.id >>> 7 ∧ msg.id >>> 7 ≤ 10)

/-- Modelled from the spec: the test that a frame is an SDO response addressed to the
node ID of the observer (response base 0x580). -/
def isSDOResponseFor (o : CanObserver) (msg : CAN_message_t) : Bool :=
  decide (msg.id = 0x580 + o.nodeID)

/-- Modelled from the spec: the calls `process` makes on the observer of one matching
entry (body missing). The raw-frame handler is called; for an observer in CANopen mode
a PDO frame goes to the PDO handler, instead of or in addition to the raw handler
according to the choice `pdoReplacesRaw`, and an SDO response addressed to its node ID
goes to the SDO-response handler, parsed. -/
def deliver (pdoReplacesRaw : Bool) (observers : Nat → CanObserver) (observer : Nat)
    (msg : CAN_message_t) : List ObserverCall :=
  let o := observers observer
  (if o.canOpenMode && isPDOFrame msg then
      (if pdoReplacesRaw then [] else [ObserverCall.handleCanFrame observer msg])
        ++ [ObserverCall.handlePDOFrame observer msg]
    else [ObserverCall.handleCanFrame observer msg])
  ++ (if o.canOpenMode && isSDOResponseFor o msg then
        [ObserverCall.handleSDOResponse observer (decodeSDO 0x580 msg)]
      else [])

/-- Modelled from the spec: the body of the loop of `process` for one slot (missing from
the sources): a free slot is skipped; an active entry is served when
`frame.id & entry.mask == entry.id & entry.mask` and the extended flag agrees. -/
def processEntry (pdoReplacesRaw : Bool) (observers : Nat → CanObserver) (e : CanObserverData)
    (msg : CAN_message_t) : List ObserverCall :=
  match e.observer with
  | none => []
  | some observer =>
    if msg.id &&& e.mask = e.id &&& e.mask ∧ msg.extended = e.extended then
      deliver pdoReplacesRaw observers observer msg
    else []

/-- Modelled from the spec: the loop of `process` over the slots `i`, `i + 1`, ... of
`observerData` (body missing); the first argument counts the slots still to visit. -/
def processLoop (pdoReplacesRaw : Bool) (observers : Nat → CanObserver) (h : CanHandler)
    (msg : CAN_message_t) : Nat → Nat → List ObserverCall
  | 0, _ => []
  | n + 1, i =>
    (match h.observerData.get? i with
      | some e => processEntry pdoReplacesRaw observers e msg
      | none => [])
    ++ processLoop pdoReplacesRaw observers h msg n (i + 1)

/-- Modelled from the spec: `CanHandler::process` (body missing), as the list of observer
calls it makes for one inbound frame, in order. -/
def process (pdoReplacesRaw : Bool) (observers : Nat → CanObserver) (h : CanHandler)
    (msg : CAN_message_t) : List ObserverCall :=
  processLoop pdoReplacesRaw observers h msg h.observerData.length 0

/-- The observers of the active entries whose filter matches the frame, in registry
order, one per matching entry: the dispatch property in its own words. -/
def matchingObservers (h : CanHandler) (msg : CAN_message_t) : List Nat :=
  h.observerData.filterMap (fun e =>
    if msg.id &&& e.mask = e.id &&& e.mask ∧ msg.extended = e.extended then e.observer else none)

-- ============================================================================
-- Lemmas : breadcrumbs
-- ============================================================================

theorem and_31 (x : Nat) : x &&& 31 = x % 32 := Nat.and_pow_two_sub_one_eq_mod x 5

theorem and_127 (x : Nat) : x &&& 127 = x % 128 := Nat.and_pow_two_sub_one_eq_mod x 7

theorem breadField_lt (a : List Char) (i : Nat) : breadField a i < 32 := by
  simp only [breadField]; rw [show (0x1F : Nat) = 31 from rfl, and_31]; omega

theorem upperName_cases (a : List Char) (h : isUpperName a) :
    ∃ c0 c1 c2 c3 c4 : Char, a = [c0, c1, c2, c3, c4] ∧
      (0x41 ≤ c0.toNat ∧ c0.toNat ≤ 0x5A) ∧ (0x41 ≤ c1.toNat ∧ c1.toNat ≤ 0x5A) ∧
      (0x41 ≤ c2.toNat ∧ c2.toNat ≤ 0x5A) ∧ (0x41 ≤ c3.toNat ∧ c3.toNat ≤ 0x5A) ∧
      (0x41 ≤ c4.toNat ∧ c4.toNat ≤ 0x5A) := by
  obtain ⟨hl, hc⟩ := h
  match a, hl, hc with
  | [c0, c1, c2, c3, c4], _, hc =>
    exact ⟨c0, c1, c2, c3, c4, rfl, hc c0 (by simp), hc c1 (by simp), hc c2 (by simp),
      hc c3 (by simp), hc c4 (by simp)⟩

theorem breadSum_eq (c0 c1 c2 c3 c4 : Char) :
    breadSum [c0, c1, c2, c3, c4] =
      (c0.toNat + 4294967232) % 4294967296 % 32 * 134217728
      + (c1.toNat + 4294967232) % 4294967296 % 32 * 4194304
      + (c2.toNat + 4294967232) % 4294967296 % 32 * 131072
      + (c3.toNat + 4294967232) % 4294967296 % 32 * 4096
      + (c4.toNat + 4294967232) % 4294967296 % 32 * 128 := by
  simp [breadSum, breadField, sub32, charAt, and_31, Nat.shiftLeft_eq]

theorem breadSum_upper (c0 c1 c2 c3 c4 : Char)
    (h0 : 0x41 ≤ c0.toNat ∧ c0.toNat ≤ 0x5A) (h1 : 0x41 ≤ c1.toNat ∧ c1.toNat ≤ 0x5A)
    (h2 : 0x41 ≤ c2.toNat ∧ c2.toNat ≤ 0x5A) (h3 : 0x41 ≤ c3.toNat ∧ c3.toNat ≤ 0x5A)
    (h4 : 0x41 ≤ c4.toNat ∧ c4.toNat ≤ 0x5A) :
    breadSum [c0, c1, c2, c3, c4] =
      (c0.toNat - 64) * 134217728 + (c1.toNat - 64) * 4194304 + (c2.toNat - 64) * 131072
      + (c3.toNat - 64) * 4096 + (c4.toNat - 64) * 128 := by
  have f : ∀ c : Nat, 0x41 ≤ c ∧ c ≤ 0x5A → (c + 4294967232) % 4294967296 % 32 = c - 64 := by
    intro c hc; omega
  rw [breadSum_eq, f _ h0, f _ h1, f _ h2, f _ h3, f _ h4]

theorem breadSum_or (a : List Char) :
    breadSum a = ((breadField a 0 <<< 27) ||| (breadField a 1 <<< 22) ||| (breadField a 2 <<< 17)
      ||| (breadField a 3 <<< 12) ||| (breadField a 4 <<< 7)) := by
  have h0 := breadField_lt a 0
  have h1 := breadField_lt a 1
  have h2 := breadField_lt a 2
  have h3 := breadField_lt a 3
  have h4 := breadField_lt a 4
  unfold breadSum
  simp only [Nat.shiftLeft_eq]
  have e1 : breadField a 0 * 2 ^ 27 + breadField a 1 * 2 ^ 22
      = breadField a 0 * 2 ^ 27 ||| breadField a 1 * 2 ^ 22 := by
    have := Nat.mul_add_lt_is_or (i := 27) (b := breadField a 1 * 2 ^ 22) (by omega) (breadField a 0)
    rw [Nat.mul_comm] at this; exact this
  have e2 : breadField a 0 * 2 ^ 27 + breadField a 1 * 2 ^ 22 + breadField a 2 * 2 ^ 17
      = (breadField a 0 * 2 ^ 27 + breadField a 1 * 2 ^ 22) ||| breadField a 2 * 2 ^ 17 := by
    have := Nat.mul_add_lt_is_or (i := 22) (b := breadField a 2 * 2 ^ 17) (by omega)
      (breadField a 0 * 32 + breadField a 1)
    have e : 2 ^ 22 * (breadField a 0 * 32 + breadField a 1)
        = breadField a 0 * 2 ^ 27 + breadField a 1 * 2 ^ 22 := by omega
    rw [e] at this; exact this
  have e3 : breadField a 0 * 2 ^ 27 + breadField a 1 * 2 ^ 22 + breadField a 2 * 2 ^ 17
        + breadField a 3 * 2 ^ 12
      = (breadField a 0 * 2 ^ 27 + breadField a 1 * 2 ^ 22 + breadField a 2 * 2 ^ 17)
        ||| breadField a 3 * 2 ^ 12 := by
    have := Nat.mul_add_lt_is_or (i := 17) (b := breadField a 3 * 2 ^ 12) (by omega)
      (breadField a 0 * 1024 + breadField a 1 * 32 + breadField a 2)
    have e : 2 ^ 17 * (breadField a 0 * 1024 + breadField a 1 * 32 + breadField a 2)
        = breadField a 0 * 2 ^ 27 + breadField a 1 * 2 ^ 22 + breadField a 2 * 2 ^ 17 := by omega
    rw [e] at this; exact this
  have e4 : breadField a 0 * 2 ^ 27 + breadField a 1 * 2 ^ 22 + breadField a 2 * 2 ^ 17
        + breadField a 3 * 2 ^ 12 + breadField a 4 * 2 ^ 7
      = (breadField a 0 * 2 ^ 27 + breadField a 1 * 2 ^ 22 + breadField a 2 * 2 ^ 17
        + breadField a 3 * 2 ^ 12) ||| breadField a 4 * 2 ^ 7 := by
    have := Nat.mul_add_lt_is_or (i := 12) (b := breadField a 4 * 2 ^ 7) (by omega)
      (breadField a 0 * 32768 + breadField a 1 * 1024 + breadField a 2 * 32 + breadField a 3)
    have e : 2 ^ 12 * (breadField a 0 * 32768 + breadField a 1 * 1024 + breadField a 2 * 32
          + breadField a 3)
        = breadField a 0 * 2 ^ 27 + breadField a 1 * 2 ^ 22 + breadField a 2 * 2 ^ 17
          + breadField a 3 * 2 ^ 12 := by omega
    rw [e] at this; exact this
  rw [e4, e3, e2, e1]

theorem breadSum_lt (a : List Char) : breadSum a < 4294967296 := by
  have h0 := breadField_lt a 0
  have h1 := breadField_lt a 1
  have h2 := breadField_lt a 2
  have h3 := breadField_lt a 3
  have h4 := breadField_lt a 4
  unfold breadSum
  simp only [Nat.shiftLeft_eq]
  omega

theorem breadcrumb_letters (c0 c1 c2 c3 c4 : Char) (c : Nat) (hc : c ≤ 127)
    (h0 : 0x41 ≤ c0.toNat ∧ c0.toNat ≤ 0x5A) (h1 : 0x41 ≤ c1.toNat ∧ c1.toNat ≤ 0x5A)
    (h2 : 0x41 ≤ c2.toNat ∧ c2.toNat ≤ 0x5A) (h3 : 0x41 ≤ c3.toNat ∧ c3.toNat ≤ 0x5A)
    (h4 : 0x41 ≤ c4.toNat ∧ c4.toNat ≤ 0x5A) (i : Nat) (hi : i < 5) :
    ((((breadSum [c0, c1, c2, c3, c4] % 4294967296 + c) % 4294967296) >>> (27 - 5 * i)) &&& 0x1F)
      + 0x40 = charAt [c0, c1, c2, c3, c4] i := by
  rw [breadSum_upper c0 c1 c2 c3 c4 h0 h1 h2 h3 h4, show (0x1F : Nat) = 31 from rfl, and_31,
    Nat.shiftRight_eq_div_pow]
  have : i = 0 ∨ i = 1 ∨ i = 2 ∨ i = 3 ∨ i = 4 := by omega
  rcases this with rfl | rfl | rfl | rfl | rfl <;> simp [charAt] <;> omega

-- ============================================================================
-- Lemmas : SDO framing
-- ============================================================================

theorem byte_split (x : Nat) (h : x < 65536) :
    (x &&& 0xFF = x % 256 ∧ (x >>> 8) &&& 0xFF = x / 256) ∧
    (x &&& 0xFF) ||| (((x >>> 8) &&& 0xFF) <<< 8) = x := by
  have e1 : x &&& 0xFF = x % 256 := Nat.and_pow_two_sub_one_eq_mod x 8
  have e2 : (x >>> 8) &&& 0xFF = (x >>> 8) % 256 := Nat.and_pow_two_sub_one_eq_mod _ 8
  have e3 : (x >>> 8) % 256 = x / 256 := by rw [Nat.shiftRight_eq_div_pow]; omega
  refine ⟨⟨e1, e2.trans e3⟩, ?_⟩
  rw [e1, e2, e3, Nat.shiftLeft_eq, Nat.lor_comm]
  have := Nat.mul_add_lt_is_or (i := 8) (b := x % 256) (by omega) (x / 256)
  rw [Nat.mul_comm] at this
  rw [← this]; omega

theorem sdo_cmd_bits (cmd len : Nat)
    (hc : cmd = SDO_WRITE ∨ cmd = SDO_READ ∨ cmd = SDO_WRITEACK) (hl : len ≤ 4) :
    (cmd ||| sdoLengthBits len) % 256 = cmd ||| sdoLengthBits len ∧
    ((cmd ||| sdoLengthBits len) % 256) &&& 0xE0 = cmd ∧
    (if ((cmd ||| sdoLengthBits len) % 256) &&& 0x03 = 0x03
      then 4 - ((((cmd ||| sdoLengthBits len) % 256) >>> 2) &&& 0x03) else 0) = len := by
  have : len = 0 ∨ len = 1 ∨ len = 2 ∨ len = 3 ∨ len = 4 := by omega
  rcases hc with rfl | rfl | rfl <;> rcases this with rfl | rfl | rfl | rfl | rfl <;> decide

theorem encodeSDO_roundtrip (base : Nat) (f : SDO_FRAME) (hty : f.wellTyped)
    (hcmd : f.cmd = SDO_WRITE ∨ f.cmd = SDO_READ ∨ f.cmd = SDO_WRITEACK)
    (hlen : f.dataLength ≤ 4) :
    ∃ msg, encodeSDO base f = some msg ∧ sdoRoundTrip base f msg := by
  obtain ⟨-, hi, hs, -, hdl, -⟩ := hty
  obtain ⟨hc0, hc1, hc2⟩ := sdo_cmd_bits f.cmd f.dataLength hcmd hlen
  obtain ⟨⟨hlo, hhi⟩, hix⟩ := byte_split f.index hi
  have htl : (f.data.take f.dataLength).length = f.dataLength := by
    rw [List.length_take]; omega
  have henc : encodeSDO base f = some
      { id := base + f.nodeID
        extended := false
        len := 8
        buf := [(f.cmd ||| sdoLengthBits f.dataLength) % 256,
                f.index &&& 0xFF, (f.index >>> 8) &&& 0xFF, f.subIndex % 256]
              ++ (f.data.take f.dataLength
                    ++ List.replicate (4 - (f.data.take f.dataLength).length) 0) } := by
    simp only [encodeSDO, if_neg (Nat.not_lt.mpr hlen)]
  have hdec : decodeSDO base
      { id := base + f.nodeID
        extended := false
        len := 8
        buf := [(f.cmd ||| sdoLengthBits f.dataLength) % 256,
                f.index &&& 0xFF, (f.index >>> 8) &&& 0xFF, f.subIndex % 256]
              ++ (f.data.take f.dataLength
                    ++ List.replicate (4 - (f.data.take f.dataLength).length) 0) }
      = { f with data := f.data.take f.dataLength ++ List.replicate (4 - f.dataLength) 0 } := by
    obtain ⟨nodeID, cmd, index, subIndex, dataLength, data⟩ := f
    simp only at *
    match data, hdl with
    | [d0, d1, d2, d3], _ =>
      simp only [decodeSDO, List.getD_cons_zero, List.getD_cons_succ, List.cons_append,
        List.nil_append, hc1, hc2, hix, Nat.mod_eq_of_lt hs, htl, Nat.add_sub_cancel_left]
      have : dataLength = 0 ∨ dataLength = 1 ∨ dataLength = 2 ∨ dataLength = 3 ∨
          dataLength = 4 := by omega
      rcases this with rfl | rfl | rfl | rfl | rfl <;> simp
  refine ⟨_, henc, ?_⟩
  unfold sdoRoundTrip
  rw [hdec]
  refine ⟨rfl, rfl, ?_, ?_, ?_, ?_, ?_, ?_, rfl, rfl, rfl, rfl, rfl, ?_, ?_⟩
  · simp [htl]; omega
  · simp only [List.cons_append, List.getD_cons_zero, hc0]
  · simp only [List.cons_append, List.getD_cons_zero, List.getD_cons_succ, hlo]
  · simp only [List.cons_append, List.getD_cons_zero, List.getD_cons_succ, hhi]
  · simp only [List.cons_append, List.getD_cons_zero, List.getD_cons_succ, Nat.mod_eq_of_lt hs]
  · simp only [List.cons_append, List.nil_append, List.drop_succ_cons, List.drop_zero, htl]
  · simp only []
    rw [List.take_append_of_le_length (by omega), List.take_take, Nat.min_self]
  · intro hz
    have hsplit := List.take_append_drop f.dataLength f.data
    rw [hz] at hsplit
    obtain ⟨nodeID, cmd, index, subIndex, dataLength, data⟩ := f
    simp only at hsplit ⊢
    rw [hsplit]

-- ============================================================================
-- Lemmas : ISO-TP segmentation
-- ============================================================================

theorem consec_header (s : Nat) :
    ((CONSEC <<< 4) ||| (s &&& 0xF)) % 256 = (CONSEC <<< 4) ||| (s &&& 0xF) ∧
    ((((CONSEC <<< 4) ||| (s &&& 0xF)) >>> 4) &&& 0xF) = CONSEC := by
  have e : s &&& 0xF = s % 16 := Nat.and_pow_two_sub_one_eq_mod s 4
  rw [e]
  have h : s % 16 < 16 := Nat.mod_lt _ (by decide)
  generalize s % 16 = x at h
  interval_cases x <;> decide

theorem sendConsec_spec (id : Nat) (data : List Nat) :
    ∀ (fuel offset remaining s : Nat), remaining ≤ fuel → offset + remaining ≤ data.length →
      (sendConsec id data fuel offset remaining s).length = (remaining + 6) / 7 ∧
      (sendConsec id data fuel offset remaining s).map (fun f => f.buf.getD 0 0)
        = (List.range ((remaining + 6) / 7)).map (fun i => (CONSEC <<< 4) ||| ((s + i) &&& 0xF)) ∧
      (∀ f ∈ sendConsec id data fuel offset remaining s,
        isotpMode f = CONSEC ∧ 1 ≤ (isotpPayload f).length ∧ (isotpPayload f).length ≤ 7 ∧
          f.len = (isotpPayload f).length + 1 ∧ f.id = id ∧ f.extended = false) ∧
      isotpReassemble (sendConsec id data fuel offset remaining s)
        = (data.drop offset).take remaining := by
  intro fuel
  induction fuel with
  | zero =>
    intro offset remaining s hf _
    have : remaining = 0 := by omega
    subst this
    simp [sendConsec, isotpReassemble]
  | succ fuel ih =>
    intro offset remaining s hf hd
    by_cases hr : remaining = 0
    · subst hr
      simp [sendConsec, isotpReassemble]
    · obtain ⟨h1, h2, h3, h4⟩ := ih (offset + min 7 remaining) (remaining - min 7 remaining)
        (s + 1) (by omega) (by omega)
      have hcnt : (remaining + 6) / 7 = (remaining - min 7 remaining + 6) / 7 + 1 := by omega
      have hlen : ((data.drop offset).take (min 7 remaining)).length = min 7 remaining := by
        rw [List.length_take, List.length_drop]; omega
      obtain ⟨hb, hm⟩ := consec_header s
      simp only [sendConsec, if_neg hr]
      refine ⟨?_, ?_, ?_, ?_⟩
      · rw [List.length_cons, h1, hcnt]
      · rw [List.map_cons, h2, hcnt, List.range_succ_eq_map, List.map_cons, List.map_map]
        simp only [List.getD_cons_zero, hb, Nat.add_zero]
        congr 1
        apply List.map_congr_left
        intro i _
        simp only [Function.comp, Nat.succ_eq_add_one]
        rw [show s + 1 + i = s + (i + 1) by omega]
      · intro f hfm
        rcases List.mem_cons.mp hfm with rfl | hfm
        · have hmode : isotpMode
              { id := id, extended := false, len := min 7 remaining + 1,
                buf := (((CONSEC <<< 4) ||| (s &&& 0xF)) % 256)
                  :: (data.drop offset).take (min 7 remaining) } = CONSEC := by
            simp only [isotpMode, List.getD_cons_zero, hb, hm]
          refine ⟨hmode, ?_⟩
          simp only [isotpPayload, hmode, show CONSEC ≠ FIRST by decide, if_false, List.drop_one,
            List.tail_cons, hlen]
          refine ⟨by omega, by omega, trivial, trivial, trivial⟩
        · exact h3 f hfm
      · have hmode : isotpMode
            { id := id, extended := false, len := min 7 remaining + 1,
              buf := (((CONSEC <<< 4) ||| (s &&& 0xF)) % 256)
                :: (data.drop offset).take (min 7 remaining) } = CONSEC := by
          simp only [isotpMode, List.getD_cons_zero, hb, hm]
        simp only [isotpReassemble] at h4 ⊢
        rw [List.map_cons, List.flatten_cons, h4]
        simp only [isotpPayload, hmode, show CONSEC ≠ FIRST by decide, if_false, List.drop_one,
          List.tail_cons]
        have e : remaining = min 7 remaining + (remaining - min 7 remaining) := by omega
        conv_rhs => rw [e, List.take_add, List.drop_drop]

theorem first_header (L : Nat) (h : L ≤ 4095) :
    ((FIRST <<< 4) ||| (L >>> 8)) % 256 = (FIRST <<< 4) ||| (L >>> 8) ∧
    ((((FIRST <<< 4) ||| (L >>> 8)) >>> 4) &&& 0xF) = FIRST ∧
    ((((FIRST <<< 4) ||| (L >>> 8)) &&& 0xF) <<< 8) ||| (L &&& 0xFF) = L := by
  have e : L &&& 0xFF = L % 256 := Nat.and_pow_two_sub_one_eq_mod L 8
  have hx : L >>> 8 < 16 := by rw [Nat.shiftRight_eq_div_pow]; omega
  have hL : L = 2 ^ 8 * (L >>> 8) + L % 256 := by rw [Nat.shiftRight_eq_div_pow]; omega
  have hor := Nat.mul_add_lt_is_or (i := 8) (b := L % 256) (by omega) (L >>> 8)
  rw [e]
  generalize L >>> 8 = x at hx hL hor
  refine ⟨?_, ?_, ?_⟩
  · interval_cases x <;> decide
  · interval_cases x <;> decide
  · have hx2 : ((FIRST <<< 4) ||| x) &&& 0xF = x := by interval_cases x <;> decide
    rw [hx2, Nat.shiftLeft_eq, Nat.mul_comm, ← hor, ← hL]

theorem toU32_natCast (L : Nat) (h : L ≤ 4095) : toU32 (L : Int) = L := by
  unfold toU32; omega

-- ============================================================================
-- Lemmas : dispatch
-- ============================================================================

theorem processEntry_eq (pr : Bool) (observers : Nat → CanObserver) (e : CanObserverData)
    (msg : CAN_message_t) :
    processEntry pr observers e msg
      = (((if msg.id &&& e.mask = e.id &&& e.mask ∧ msg.extended = e.extended then e.observer
            else none).toList).map (fun o => deliver pr observers o msg)).flatten := by
  unfold processEntry
  cases e.observer with
  | none => simp
  | some o => by_cases hm : msg.id &&& e.mask = e.id &&& e.mask ∧ msg.extended = e.extended <;>
      simp [hm]

theorem processLoop_eq (pr : Bool) (observers : Nat → CanObserver) (h : CanHandler)
    (msg : CAN_message_t) :
    ∀ n i, i + n = h.observerData.length →
      processLoop pr observers h msg n i
        = (((h.observerData.drop i).filterMap (fun e =>
              if msg.id &&& e.mask = e.id &&& e.mask ∧ msg.extended = e.extended then e.observer
              else none)).map (fun o => deliver pr observers o msg)).flatten := by
  intro n
  induction n with
  | zero =>
    intro i hi
    have : h.observerData.drop i = [] := List.drop_eq_nil_of_le (by omega)
    simp [processLoop, this]
  | succ n ih =>
    intro i hi
    have hlt : i < h.observerData.length := by omega
    have hget : h.observerData.get? i = some (h.observerData[i]) := by
      rw [List.get?_eq_getElem?, List.getElem?_eq_getElem hlt]
    have hdrop : h.observerData.drop i = h.observerData[i] :: h.observerData.drop (i + 1) :=
      List.drop_eq_getElem_cons hlt
    rw [processLoop, hget]
    dsimp only
    rw [ih (i + 1) (by omega), hdrop, List.filterMap_cons, processEntry_eq]
    cases hc : (if msg.id &&& (h.observerData[i]).mask
        = (h.observerData[i]).id &&& (h.observerData[i]).mask
          ∧ msg.extended = (h.observerData[i]).extended then (h.observerData[i]).observer
        else none) with
    | none => simp
    | some o => simp

theorem process_eq (pr : Bool) (observers : Nat → CanObserver) (h : CanHandler)
    (msg : CAN_message_t) :
    process pr observers h msg
      = ((matchingObservers h msg).map (fun o => deliver pr observers o msg)).flatten := by
  unfold process matchingObservers
  rw [processLoop_eq pr observers h msg _ 0 (by omega), List.drop_zero]

theorem deliver_target (pr : Bool) (observers : Nat → CanObserver) (o : Nat)
    (msg : CAN_message_t) :
    deliver pr observers o msg ≠ [] ∧ ∀ c ∈ deliver pr observers o msg, c.target = o := by
  simp only [deliver]
  generalize isSDOResponseFor (observers o) msg = s
  generalize isPDOFrame msg = p
  generalize (observers o).canOpenMode = b
  cases pr <;> cases b <;> cases p <;> cases s <;> simp [ObserverCall.target]

theorem deliver_raw (pr : Bool) (observers : Nat → CanObserver) (o : Nat)
    (msg : CAN_message_t) (h : (observers o).canOpenMode = false) :
    deliver pr observers o msg = [ObserverCall.handleCanFrame o msg] := by
  simp [deliver, h]

theorem attach_init (numMailboxes n busSpeed observer id mask : Nat) (extended : Bool) :
    attach (numMailboxes + 1) (CanHandler.init (n + 1) busSpeed) observer id mask extended
      = ⟨⟨id, mask, extended, 0, some observer⟩ :: List.replicate n freeObserverData, busSpeed⟩ := by
  have h1 : findFreeObserverData (CanHandler.init (n + 1) busSpeed) = 0 := by
    simp [findFreeObserverData, CanHandler.init, List.replicate_succ, List.findIdx?_cons,
      freeObserverData]
  have h2 : findFreeMailbox (numMailboxes + 1) (CanHandler.init (n + 1) busSpeed) = 0 := by
    have hu : mailboxInUse (CanHandler.init (n + 1) busSpeed) 0 = false := by
      simp [mailboxInUse, CanHandler.init, freeObserverData]
    simp [findFreeMailbox, List.range_succ_eq_map, List.find?_cons, hu]
  simp only [attach, h1, h2]
  simp [CanHandler.init, List.replicate_succ]

theorem matchingObservers_attach_init (numMailboxes n busSpeed observer id mask : Nat)
    (extended : Bool) (msg : CAN_message_t) :
    matchingObservers
        (attach (numMailboxes + 1) (CanHandler.init (n + 1) busSpeed) observer id mask extended)
        msg
      = if msg.id &&& mask = id &&& mask ∧ msg.extended = extended then [observer] else [] := by
  rw [attach_init]
  have hfree : (List.replicate n freeObserverData).filterMap (fun e =>
      if msg.id &&& e.mask = e.id &&& e.mask ∧ msg.extended = e.extended then e.observer
      else none) = [] := by
    rw [List.filterMap_eq_nil_iff]
    intro e he
    rw [List.eq_of_mem_replicate he]
    simp [freeObserverData]
  unfold matchingObservers
  simp only [List.filterMap_cons, hfree]
  split_ifs with hm <;> simp_all

-- ============================================================================
-- Theorems
-- ============================================================================

/-- C1: dispatch matching. For every registry state and every inbound frame, `process`
makes exactly the calls of `deliver` on the observers of the active entries whose filter
matches (masked identifiers equal and extended flag agreeing), once per matching entry and
in registry order. Each such delivery is non-empty and calls only that entry's observer,
and is the single raw-handler call for an observer not in CANopen mode. A frame that
matches no active entry causes no call. After `attach(id=0x606, mask=0x7FF,
extended=false)` on a fresh registry, a frame with id 0x606 calls that observer's raw
handler exactly once and a frame with id 0x607 makes no call. -/
theorem process_dispatch_matching (pdoReplacesRaw : Bool) (observers : Nat → CanObserver)
    (h : CanHandler) (msg : CAN_message_t) :
    process pdoReplacesRaw observers h msg
        = ((matchingObservers h msg).map
            (fun o => deliver pdoReplacesRaw observers o msg)).flatten ∧
    (∀ o, deliver pdoReplacesRaw observers o msg ≠ [] ∧
        ∀ c ∈ deliver pdoReplacesRaw observers o msg, c.target = o) ∧
    (∀ o, (observers o).canOpenMode = false →
        deliver pdoReplacesRaw observers o msg = [ObserverCall.handleCanFrame o msg]) ∧
    ((∀ e ∈ h.observerData, e.observer ≠ none →
        ¬ (msg.id &&& e.mask = e.id &&& e.mask ∧ msg.extended = e.extended)) →
      process pdoReplacesRaw observers h msg = []) ∧
    (∀ (numMailboxes n observer len : Nat) (buf : List Nat),
      (process pdoReplacesRaw observers
          (attach (numMailboxes + 1) (CanHandler.init (n + 1) 500) observer 0x606 0x7FF false)
          ⟨0x606, false, len, buf⟩).filter (isRawCallTo observer)
        = [ObserverCall.handleCanFrame observer ⟨0x606, false, len, buf⟩] ∧
      process pdoReplacesRaw observers
          (attach (numMailboxes + 1) (CanHandler.init (n + 1) 500) observer 0x606 0x7FF false)
          ⟨0x607, false, len, buf⟩ = []) := by
  refine ⟨process_eq pdoReplacesRaw observers h msg,
    fun o => deliver_target pdoReplacesRaw observers o msg,
    fun o ho => deliver_raw pdoReplacesRaw observers o msg ho, ?_, ?_⟩
  · intro hno
    rw [process_eq]
    have : matchingObservers h msg = [] := by
      unfold matchingObservers
      rw [List.filterMap_eq_nil_iff]
      intro e he
      by_cases hob : e.observer = none
      · simp [hob]
      · simp [hno e he hob]
    rw [this]; rfl
  · intro numMailboxes n observer len buf
    rw [process_eq, process_eq, matchingObservers_attach_init, matchingObservers_attach_init]
    refine ⟨?_, ?_⟩
    · have hpdo : isPDOFrame ⟨0x606, false, len, buf⟩ = false := by
        simp [isPDOFrame, Nat.shiftRight_eq_div_pow]
      rw [if_pos ⟨rfl, rfl⟩]
      simp only [List.map_cons, List.map_nil, List.flatten_cons, List.flatten_nil,
        List.append_nil, deliver, hpdo, Bool.and_false, Bool.false_eq_true, if_false]
      by_cases hs : ((observers observer).canOpenMode &&
          isSDOResponseFor (observers observer) ⟨0x606, false, len, buf⟩) = true
      · rw [if_pos hs]; simp [isRawCallTo]
      · rw [if_neg hs]; simp [isRawCallTo]
    · have hne : ¬ ((0x607 : Nat) &&& 0x7FF = 0x606 &&& 0x7FF) := by decide
      simp [hne]

/-- C2 (amended): ISO-TP segmentation round trip. For every payload of length L with
7 < L ≤ 4095, `sendISOTP(id, L, data)` emits one FIRST frame whose byte 0 is
`(FIRST<<4)|(L>>8)` and byte 1 is `L & 0xFF`, followed by the first 6 payload bytes, then
ceil((L-6)/7) CONSEC frames whose byte 0 is `(CONSEC<<4)|(seq & 0xF)` with seq = 1, 2,
3, ..., each carrying between 1 and 7 payload bytes; the high nibble of every header byte
is the frame's `ISOTP_MODE`, the length declared in the FIRST frame is L, and the payload
bytes of the frames concatenated in order are `data`. -/
theorem sendISOTP_segmentation_roundtrip (id : Int) (L : Nat) (data : List Nat)
    (h7 : 7 < L) (h12 : L ≤ 4095) (hd : data.length = L) :
    ∃ first consec, sendISOTP id (L : Int) data = first :: consec ∧
      first.buf = ((FIRST <<< 4) ||| (L >>> 8)) :: (L &&& 0xFF) :: data.take 6 ∧
      (data.take 6).length = 6 ∧
      isotpMode first = FIRST ∧ isotpDeclaredLength first = L ∧
      consec.length = (L - 6 + 6) / 7 ∧
      consec.map (fun f => f.buf.getD 0 0)
        = (List.range consec.length).map (fun i => (CONSEC <<< 4) ||| ((i + 1) &&& 0xF)) ∧
      (∀ f ∈ consec, isotpMode f = CONSEC ∧ 1 ≤ (isotpPayload f).length ∧
        (isotpPayload f).length ≤ 7) ∧
      isotpReassemble (first :: consec) = data := by
  obtain ⟨hb, hm, hl⟩ := first_header L h12
  obtain ⟨c1, c2, c3, c4⟩ := sendConsec_spec (toU32 id) data (L - 6) 6 (L - 6) 1 (le_refl _)
    (by omega)
  have hnot : ¬ ((L : Int) ≤ 7) := by omega
  have hmode : isotpMode
      { id := toU32 id, extended := false, len := 8,
        buf := ((FIRST <<< 4) ||| (L >>> 8)) :: (L &&& 0xFF) :: data.take 6 } = FIRST := by
    simp only [isotpMode, List.getD_cons_zero, hm]
  refine ⟨{ id := toU32 id, extended := false, len := 8,
            buf := ((FIRST <<< 4) ||| (L >>> 8)) :: (L &&& 0xFF) :: data.take 6 },
          sendConsec (toU32 id) data (L - 6) 6 (L - 6) 1, ?_, rfl, ?_, hmode, ?_, c1, ?_, ?_, ?_⟩
  · simp only [sendISOTP, if_neg hnot, toU32_natCast L h12, Int.toNat_ofNat, hb]
  · rw [List.length_take]; omega
  · simp only [isotpDeclaredLength, List.getD_cons_zero, List.getD_cons_succ, hl]
  · rw [c2, c1]
    apply List.map_congr_left
    intro i _
    rw [Nat.add_comm 1 i]
  · intro f hf
    obtain ⟨a1, a2, a3, -⟩ := c3 f hf
    exact ⟨a1, a2, a3⟩
  · simp only [isotpReassemble] at c4 ⊢
    rw [List.map_cons, List.flatten_cons, c4]
    simp only [isotpPayload, hmode, if_true, List.drop_succ_cons, List.drop_zero]
    have : (data.drop 6).take (L - 6) = data.drop 6 := by
      apply List.take_of_length_le
      rw [List.length_drop]; omega
    rw [this, List.take_append_drop]

/-- C2 at L = 20: the hypotheses hold, the frames are one FIRST frame with 6 payload
bytes and two CONSEC frames with 7 and 7 bytes, and the theorem applies. -/
theorem sendISOTP_segmentation_roundtrip_witness :
    7 < 20 ∧ 20 ≤ 4095 ∧ (List.range 20).length = 20 ∧
    sendISOTP 0x700 20 (List.range 20)
      = [⟨0x700, false, 8, [0x10, 20, 0, 1, 2, 3, 4, 5]⟩,
         ⟨0x700, false, 8, [0x21, 6, 7, 8, 9, 10, 11, 12]⟩,
         ⟨0x700, false, 8, [0x22, 13, 14, 15, 16, 17, 18, 19]⟩] ∧
    ∃ first consec, sendISOTP 0x700 ((20 : Nat) : Int) (List.range 20) = first :: consec ∧
      first.buf = ((FIRST <<< 4) ||| (20 >>> 8)) :: (20 &&& 0xFF) :: (List.range 20).take 6 ∧
      ((List.range 20).take 6).length = 6 ∧
      isotpMode first = FIRST ∧ isotpDeclaredLength first = 20 ∧
      consec.length = (20 - 6 + 6) / 7 ∧
      consec.map (fun f => f.buf.getD 0 0)
        = (List.range consec.length).map (fun i => (CONSEC <<< 4) ||| ((i + 1) &&& 0xF)) ∧
      (∀ f ∈ consec, isotpMode f = CONSEC ∧ 1 ≤ (isotpPayload f).length ∧
        (isotpPayload f).length ≤ 7) ∧
      isotpReassemble (first :: consec) = List.range 20 :=
  ⟨by decide, by decide, by decide, by decide,
    sendISOTP_segmentation_roundtrip 0x700 20 (List.range 20) (by decide) (by decide)
      (by decide)⟩

/-- C2 as stated fails for long payloads: for a payload of 4096 bytes the FIRST frame
declares the length 0, not 4096; for a payload of 8192 bytes the high nibble of the header
byte of the first frame is FLOW, not FIRST. -/
theorem sendISOTP_long_payload_counterexample :
    (7 < 4096 ∧ (List.replicate 4096 0).length = 4096 ∧
      (sendISOTP 0x700 4096 (List.replicate 4096 0)).head?.map isotpDeclaredLength = some 0 ∧
      (sendISOTP 0x700 4096 (List.replicate 4096 0)).head?.map isotpDeclaredLength
        ≠ some 4096) ∧
    (7 < 8192 ∧ (List.replicate 8192 0).length = 8192 ∧
      (sendISOTP 0x700 8192 (List.replicate 8192 0)).head?.map isotpMode = some FLOW ∧
      (sendISOTP 0x700 8192 (List.replicate 8192 0)).head?.map isotpMode ≠ some FIRST) := by
  have h1 : (sendISOTP 0x700 4096 (List.replicate 4096 0)).head?.map isotpDeclaredLength
      = some 0 := by
    rw [sendISOTP, if_neg (by decide)]
    decide
  have h2 : (sendISOTP 0x700 8192 (List.replicate 8192 0)).head?.map isotpMode
      = some FLOW := by
    rw [sendISOTP, if_neg (by decide)]
    decide
  refine ⟨⟨by decide, List.length_replicate _ _, h1, ?_⟩,
    ⟨by decide, List.length_replicate _ _, h2, ?_⟩⟩
  · rw [h1]; decide
  · rw [h2]; decide

/-- C3: SDO encode/decode round trip. For every `SDO_FRAME` with cmd among SDO_WRITE,
SDO_READ, SDO_WRITEACK and dataLength ≤ 4, `sendSDORequest` and `sendSDOResponse` each
produce an 8-byte frame (byte 0 the command combined with the data-length encoding, bytes
1-2 the index little-endian, byte 3 the sub-index, bytes 4-7 the payload zero-padded,
identifier the SDO base plus nodeID), and decoding that frame yields the identical nodeID,
cmd, index, subIndex, dataLength and data bytes (the dataLength bytes of payload; when the
unused bytes of `data` are zero, the identical struct). -/
theorem sdo_encode_decode_roundtrip (f : SDO_FRAME) (hty : f.wellTyped)
    (hcmd : f.cmd = SDO_WRITE ∨ f.cmd = SDO_READ ∨ f.cmd = SDO_WRITEACK)
    (hlen : f.dataLength ≤ 4) :
    (∃ msg, sendSDORequest f = some msg ∧ sdoRoundTrip 0x600 f msg) ∧
    (∃ msg, sendSDOResponse f = some msg ∧ sdoRoundTrip 0x580 f msg) :=
  ⟨encodeSDO_roundtrip 0x600 f hty hcmd hlen, encodeSDO_roundtrip 0x580 f hty hcmd hlen⟩

/-- C3 at the frame nodeID=5, cmd=WRITE, index=0x2100, subIndex=1, dataLength=2,
data=[0xAB,0xCD]: the hypotheses hold, the request frame is 0x605 with bytes
2B 00 21 01 AB CD 00 00, it decodes to the same struct, and the theorem applies. -/
theorem sdo_encode_decode_roundtrip_witness :
    sdoSample.wellTyped ∧ sdoSample.dataLength ≤ 4 ∧
    sendSDORequest sdoSample
      = some ⟨0x605, false, 8, [0x2B, 0x00, 0x21, 0x01, 0xAB, 0xCD, 0, 0]⟩ ∧
    (sendSDORequest sdoSample).map (decodeSDO 0x600) = some sdoSample ∧
    ((∃ msg, sendSDORequest sdoSample = some msg ∧ sdoRoundTrip 0x600 sdoSample msg) ∧
     (∃ msg, sendSDOResponse sdoSample = some msg ∧ sdoRoundTrip 0x580 sdoSample msg)) :=
  ⟨by decide, by decide, by decide, by decide,
    sdo_encode_decode_roundtrip sdoSample (by decide) (Or.inl rfl) (by decide)⟩

/-- C4: `ENCODE_BREAD` packs a name losslessly. For every name `a` of five uppercase
letters, the 32-bit word v = ENCODE_BREAD(a) holds the letters 5 bits at a time in its
top 25 bits: ((v >> (27 - 5*i)) & 0x1F) + 0x40 = a[i] for i = 0..4; the five shifted
fields do not overlap (their sum equals their bitwise OR and is below 2^32); and two
different such names never produce the same breadcrumb. -/
theorem ENCODE_BREAD_lossless (a : List Char) (h : isUpperName a) :
    (∀ i, i < 5 → ((ENCODE_BREAD a >>> (27 - 5 * i)) &&& 0x1F) + 0x40 = charAt a i) ∧
    (breadSum a = ((breadField a 0 <<< 27) ||| (breadField a 1 <<< 22) |||
        (breadField a 2 <<< 17) ||| (breadField a 3 <<< 12) ||| (breadField a 4 <<< 7)) ∧
      breadSum a < 2 ^ 32) ∧
    (∀ b : List Char, isUpperName b → ENCODE_BREAD a = ENCODE_BREAD b → a = b) := by
  have dec : ∀ x : List Char, isUpperName x →
      ∀ i, i < 5 → ((ENCODE_BREAD x >>> (27 - 5 * i)) &&& 0x1F) + 0x40 = charAt x i := by
    intro x hx i hi
    obtain ⟨c0, c1, c2, c3, c4, rfl, h0, h1, h2, h3, h4⟩ := upperName_cases x hx
    have := breadcrumb_letters c0 c1 c2 c3 c4 0 (by omega) h0 h1 h2 h3 h4 i hi
    simpa [ENCODE_BREAD] using this
  refine ⟨dec a h, ⟨breadSum_or a, by have := breadSum_lt a; norm_num; exact this⟩, ?_⟩
  intro b hb heq
  have da := dec a h
  have db := dec b hb
  rw [heq] at da
  have key : ∀ i, i < 5 → charAt a i = charAt b i := fun i hi => (da i hi).symm.trans (db i hi)
  obtain ⟨c0, c1, c2, c3, c4, rfl, -⟩ := upperName_cases a h
  obtain ⟨d0, d1, d2, d3, d4, rfl, -⟩ := upperName_cases b hb
  have inj : ∀ x y : Char, x.toNat = y.toNat → x = y := by
    intro x y hxy
    apply Char.ext
    apply UInt32.ext
    exact hxy
  have k0 := key 0 (by omega)
  have k1 := key 1 (by omega)
  have k2 := key 2 (by omega)
  have k3 := key 3 (by omega)
  have k4 := key 4 (by omega)
  simp only [charAt, List.getD_cons_zero, List.getD_cons_succ] at k0 k1 k2 k3 k4
  rw [inj _ _ k0, inj _ _ k1, inj _ _ k2, inj _ _ k3, inj _ _ k4]

/-- C4 at the name PTTHR: it is a five-letter uppercase name, ENCODE_BREAD("PTTHR") is
0x85288900, and the theorem applies. -/
theorem ENCODE_BREAD_lossless_witness :
    isUpperName PTTHR ∧ ENCODE_BREAD PTTHR = 0x85288900 ∧
    ((∀ i, i < 5 → ((ENCODE_BREAD PTTHR >>> (27 - 5 * i)) &&& 0x1F) + 0x40 = charAt PTTHR i) ∧
     (breadSum PTTHR = ((breadField PTTHR 0 <<< 27) ||| (breadField PTTHR 1 <<< 22) |||
        (breadField PTTHR 2 <<< 17) ||| (breadField PTTHR 3 <<< 12) |||
        (breadField PTTHR 4 <<< 7)) ∧
      breadSum PTTHR < 2 ^ 32) ∧
     (∀ b : List Char, isUpperName b → ENCODE_BREAD PTTHR = ENCODE_BREAD b → PTTHR = b)) :=
  ⟨by decide, by decide, ENCODE_BREAD_lossless PTTHR (by decide)⟩

/-- C5: the low 7 bits of a breadcrumb are a free counter. For every name `a` of five
uppercase letters, ENCODE_BREAD(a) & 0x7F = 0, and for every counter c with 0 ≤ c ≤ 127
the breadcrumb ENCODE_BREAD(a) + c satisfies (ENCODE_BREAD(a) + c) & 0x7F = c and
(ENCODE_BREAD(a) + c) >> 7 = ENCODE_BREAD(a) >> 7, so the five encoded letters are read
back unchanged. -/
theorem breadcrumb_counter_free (a : List Char) (h : isUpperName a) :
    ENCODE_BREAD a &&& 0x7F = 0 ∧
    ∀ c, c ≤ 127 →
      breadcrumbWithCounter a c &&& 0x7F = c ∧
      breadcrumbWithCounter a c >>> 7 = ENCODE_BREAD a >>> 7 ∧
      (∀ i, i < 5 →
        ((breadcrumbWithCounter a c >>> (27 - 5 * i)) &&& 0x1F) + 0x40 = charAt a i) := by
  obtain ⟨c0, c1, c2, c3, c4, rfl, h0, h1, h2, h3, h4⟩ := upperName_cases a h
  have hs := breadSum_upper c0 c1 c2 c3 c4 h0 h1 h2 h3 h4
  refine ⟨?_, ?_⟩
  · rw [show (0x7F : Nat) = 127 from rfl, and_127]
    unfold ENCODE_BREAD
    rw [hs]; omega
  · intro c hc
    rw [show (0x7F : Nat) = 127 from rfl, and_127]
    refine ⟨?_, ?_, ?_⟩
    · unfold breadcrumbWithCounter ENCODE_BREAD
      rw [hs]; omega
    · unfold breadcrumbWithCounter ENCODE_BREAD
      rw [hs]; simp only [Nat.shiftRight_eq_div_pow]; omega
    · intro i hi
      exact breadcrumb_letters c0 c1 c2 c3 c4 c hc h0 h1 h2 h3 h4 i hi

/-- C5 at the name PTTHR: the breadcrumbs of `PotThrottle::setup` (counter 0) and of
`PotThrottle::handleTick` (counter 1) are 0x85288900 and 0x85288901, and the theorem
applies, so both decode to the same name. -/
theorem breadcrumb_counter_free_witness :
    isUpperName PTTHR ∧ setupBreadcrumb = 0x85288900 ∧ handleTickBreadcrumb = 0x85288901 ∧
    (ENCODE_BREAD PTTHR &&& 0x7F = 0 ∧
     ∀ c, c ≤ 127 →
      breadcrumbWithCounter PTTHR c &&& 0x7F = c ∧
      breadcrumbWithCounter PTTHR c >>> 7 = ENCODE_BREAD PTTHR >>> 7 ∧
      (∀ i, i < 5 →
        ((breadcrumbWithCounter PTTHR c >>> (27 - 5 * i)) &&& 0x1F) + 0x40
          = charAt PTTHR i)) :=
  ⟨by decide, by decide, by decide, breadcrumb_counter_free PTTHR (by decide)⟩

/-- C6: acceptance condition of `PotThrottle::validateSignal`. Let T =
CFG_THROTTLE_TOLERANCE (≥ 0), E = ThrottleMaxErrValue, n1 and n2 the unconstrained results
of `normalizeInput` for input1 and input2, c1 = 1000 - n1 when numberPotMeters = 1 and
throttleSubType = 2 and c1 = n1 otherwise, c2 = n2. With the values in the range where
the `int32_t` arithmetic of the function does not overflow (n1, n2, E, 1000 + T and
1000 - E representable), for every raw signal, configuration and prior status
`validateSignal` returns true if and only if -T ≤ c1 ≤ 1000 + T and -T ≤ c2 ≤ 1000 + T
and |clamp(c1) - clamp(c2)| ≤ E, where clamp(x) = min(1000, max(0, x)). -/
theorem validateSignal_accepts_iff (env : ThrottleEnv) (config : PotThrottleConfiguration)
    (status : ThrottleStatus) (rawSignal : RawSignalData)
    (hT : 0 ≤ env.CFG_THROTTLE_TOLERANCE)
    (hT32 : isInt32 (1000 + env.CFG_THROTTLE_TOLERANCE))
    (hE32 : isInt32 env.ThrottleMaxErrValue ∧ isInt32 (1000 - env.ThrottleMaxErrValue))
    (hn1 : isInt32
      (env.normalizeInput rawSignal.input1 config.minimumLevel1 config.maximumLevel1))
    (hn2 : isInt32
      (env.normalizeInput rawSignal.input2 config.minimumLevel2 config.maximumLevel2)) :
    (validateSignal env config status rawSignal).ok = true ↔
      (-env.CFG_THROTTLE_TOLERANCE ≤ unconstrained1 env config rawSignal ∧
        unconstrained1 env config rawSignal ≤ 1000 + env.CFG_THROTTLE_TOLERANCE ∧
        -env.CFG_THROTTLE_TOLERANCE ≤ unconstrained2 env config rawSignal ∧
        unconstrained2 env config rawSignal ≤ 1000 + env.CFG_THROTTLE_TOLERANCE ∧
        |clampPermille (unconstrained1 env config rawSignal)
          - clampPermille (unconstrained2 env config rawSignal)| ≤ env.ThrottleMaxErrValue) := by
  unfold unconstrained1 unconstrained2 validateSignal
  generalize env.normalizeInput rawSignal.input1 config.minimumLevel1 config.maximumLevel1 = n1
    at hn1 ⊢
  generalize env.normalizeInput rawSignal.input2 config.minimumLevel2 config.maximumLevel2 = n2
    at hn2 ⊢
  generalize env.CFG_THROTTLE_TOLERANCE = T at hT hT32 ⊢
  generalize env.ThrottleMaxErrValue = E at hE32 ⊢
  rw [abs_le]
  unfold isInt32 at hT32 hE32 hn1 hn2
  unfold clampPermille
  have w1 : wrap32 n1 = n1 := by unfold wrap32; omega
  have w2 : wrap32 n2 = n2 := by unfold wrap32; omega
  have wT : wrap32 (1000 + T) = 1000 + T := by unfold wrap32; omega
  have wT0 : wrap32 (0 - T) = -T := by unfold wrap32; omega
  have wE : ∀ c : Int, wrap32 (max (min c 1000) 0 - E) = max (min c 1000) 0 - E := by
    intro c; unfold wrap32; omega
  have wI : wrap32 (1000 - n1) = 1000 - n1 ∨
      (wrap32 (1000 - n1) < -T ∧ 1000 + T < 1000 - n1) := by
    unfold wrap32; omega
  have hmin : ∀ c : Int, (if c > 1000 then 1000 else c) = min c 1000 := by
    intro c; split_ifs <;> omega
  have hmax : ∀ c : Int, (if c < 0 then 0 else c) = max c 0 := by
    intro c; split_ifs <;> omega
  simp only [w1, w2, wT, wT0, hmin, hmax, wE]
  clear w1 w2 wT wT0 wE hmin hmax
  have hc : ∀ x : Int, min 1000 (max 0 x) = max (min x 1000) 0 := by intro x; omega
  simp only [hc]
  have hb2 : (0 ≤ n2 ∧ n2 ≤ 1000 ∧ max (min n2 1000) 0 = n2) ∨
      (n2 < 0 ∧ max (min n2 1000) 0 = 0) ∨ (1000 < n2 ∧ max (min n2 1000) 0 = 1000) := by
    omega
  by_cases hinv : config.numberPotMeters = 1 ∧ config.throttleSubType = 2
  · simp only [hinv, and_self, if_true]
    generalize wrap32 (1000 - n1) = m at wI ⊢
    have hm : max (min m 1000) 0 = max (min (1000 - n1) 1000) 0 ∨
        (m < -T ∧ 1000 + T < 1000 - n1) := by omega
    generalize max (min m 1000) 0 = a1 at hm ⊢
    have hb1 : (0 ≤ 1000 - n1 ∧ 1000 - n1 ≤ 1000 ∧ max (min (1000 - n1) 1000) 0 = 1000 - n1) ∨
        (1000 - n1 < 0 ∧ max (min (1000 - n1) 1000) 0 = 0) ∨
        (1000 < 1000 - n1 ∧ max (min (1000 - n1) 1000) 0 = 1000) := by omega
    generalize max (min (1000 - n1) 1000) 0 = b1 at hm hb1 ⊢
    generalize max (min n2 1000) 0 = b2 at hb2 ⊢
    split_ifs <;> simp only [Bool.false_eq_true, false_iff, true_iff] <;> omega
  · simp only [hinv, if_false]
    have hb1 : (0 ≤ n1 ∧ n1 ≤ 1000 ∧ max (min n1 1000) 0 = n1) ∨
        (n1 < 0 ∧ max (min n1 1000) 0 = 0) ∨ (1000 < n1 ∧ max (min n1 1000) 0 = 1000) := by
      omega
    generalize max (min n1 1000) 0 = b1 at hb1 ⊢
    generalize max (min n2 1000) 0 = b2 at hb2 ⊢
    split_ifs <;> simp only [Bool.false_eq_true, false_iff, true_iff] <;> omega

/-- C6 at tolerance 150, mismatch limit 100, the default calibration and the readings
3300 and 1583: input 1 normalises to 1050, outside 0..1000 but within the tolerance, and
is clamped to 1000 before the comparison with input 2 (1000); the signal is accepted, the
hypotheses hold, and the theorem applies. -/
theorem validateSignal_accepts_iff_witness :
    unconstrained1 sampleEnv defaultConfig ⟨3300, 1583⟩ = 1050 ∧
    unconstrained2 sampleEnv defaultConfig ⟨3300, 1583⟩ = 1000 ∧
    (validateSignal sampleEnv defaultConfig .OK ⟨3300, 1583⟩).ok = true ∧
    ((validateSignal sampleEnv defaultConfig .OK ⟨3300, 1583⟩).ok = true ↔
      (-sampleEnv.CFG_THROTTLE_TOLERANCE ≤ unconstrained1 sampleEnv defaultConfig ⟨3300, 1583⟩ ∧
        unconstrained1 sampleEnv defaultConfig ⟨3300, 1583⟩
          ≤ 1000 + sampleEnv.CFG_THROTTLE_TOLERANCE ∧
        -sampleEnv.CFG_THROTTLE_TOLERANCE ≤ unconstrained2 sampleEnv defaultConfig ⟨3300, 1583⟩ ∧
        unconstrained2 sampleEnv defaultConfig ⟨3300, 1583⟩
          ≤ 1000 + sampleEnv.CFG_THROTTLE_TOLERANCE ∧
        |clampPermille (unconstrained1 sampleEnv defaultConfig ⟨3300, 1583⟩)
          - clampPermille (unconstrained2 sampleEnv defaultConfig ⟨3300, 1583⟩)|
          ≤ sampleEnv.ThrottleMaxErrValue)) :=
  ⟨by decide, by decide, by decide,
    validateSignal_accepts_iff sampleEnv defaultConfig .OK ⟨3300, 1583⟩
      (by decide) (by decide) (by decide) (by decide) (by decide)⟩
